import Mathlib

/-!
Shallow embedding of `src/server/api/routers/payment-management.ts`,
a tRPC router around the Lemon Squeezy payment provider.

Modelling conventions:
* The relational store (Prisma) is a record of lists of rows; `create`
  appends at the end, so list order is insertion (autoincrement id) order,
  and `findFirst`/`findUnique` with no `orderBy` is `List.find?`.
* Environment variables that the code reads through `env.*` or
  `process.env.*` are `Option String` fields; a JavaScript falsiness test
  `!env.X` is `strFalsy` (missing or empty string).
* Each handler returns its result as `Except String α` (a thrown `Error`
  with a plain string message is `.error msg`) together with the list of
  provider API calls it performed, in order.  A handler that throws before
  a provider call simply has an empty (or shorter) call list.
* The provider itself is a state: its registered webhooks, and the data
  payloads its list/get endpoints answer with.  `Option` on a payload
  models a response carrying no `data`.
* `Date` values are already normalised timestamps (`setHours(0,0,0,0)`),
  modelled as `Nat`; Prisma's `gte` is `≤` on those numbers.
* `await Promise.all(variants.map ...)` is modelled as a left-to-right
  fold (single-request-scoped execution, no concurrency coordination).
-/

namespace PaymentManagement

/-- A row of the `FeatureUsage` table: `(userId, date)` is its unique key. -/
structure FeatureUsageRow where
  userId : String
  date : Nat
  buttonClicks : Int
deriving Repr, DecidableEq

/-- A row of the `Plan` table. -/
structure PlanRow where
  lemonSqueezyVariantId : String
  name : String
deriving Repr, DecidableEq

/-- A row of the `LemonSqueezySubscription` table. -/
structure SubscriptionRow where
  userId : String
  variantId : String
deriving Repr, DecidableEq

/-- A row of the `OneTimePurchase` table. -/
structure OneTimePurchaseRow where
  userId : String
deriving Repr, DecidableEq

/-- The relational store. -/
structure DB where
  featureUsage : List FeatureUsageRow
  plans : List PlanRow
  subscriptions : List SubscriptionRow
  oneTimePurchases : List OneTimePurchaseRow
deriving Repr, DecidableEq

/-- The authenticated user carried on `ctx.session`. -/
structure SessionUser where
  id : String
  email : Option String
  role : String
deriving Repr, DecidableEq

/-- The environment.  Note the source reads two distinct store-id
variables: `env.LEMON_SQUEEZY_STORE_ID` and (inside `hasWebhook`)
`process.env.LEMONSQUEEZY_STORE_ID`, without the underscore. -/
structure Env where
  LEMON_SQUEEZY_WEBHOOK_URL : Option String
  LEMON_SQUEEZY_STORE_ID : Option String
  LEMON_SQUEEZY_WEBHOOK_SECRET : Option String
  LEMONSQUEEZY_STORE_ID : Option String
  NEXT_PUBLIC_DEPLOYMENT_URL : String
deriving Repr, DecidableEq

/-- JavaScript falsiness of an optional string (`!env.X`): missing
(`undefined`) or the empty string. -/
def strFalsy : Option String → Bool
  | none => true
  | some s => s == ""

/-- A webhook registered at the provider. -/
structure WebhookRow where
  storeId : Option String
  url : String
  test_mode : Bool
deriving Repr, DecidableEq

/-- A provider variant (`listVariants` item); `product_id` is already
stringified as the source does with `String(variant.attributes.product_id)`. -/
structure VariantRow where
  id : String
  name : String
  status : String
  product_id : String
deriving Repr, DecidableEq

/-- A provider product (`listProducts` / `getProduct` item). -/
structure ProductRow where
  id : String
deriving Repr, DecidableEq

/-- The provider's state: registered webhooks plus the `data` payloads its
read endpoints answer with.  `none` models a response carrying no data. -/
structure Provider where
  webhooks : List WebhookRow
  variantsData : Option (List VariantRow)
  productsData : Option (List ProductRow)
deriving Repr, DecidableEq

/-- One provider API call, as recorded in a handler's trace. -/
inductive ApiCall where
  | listWebhooks (storeIdFilter : Option String)
  | createWebhook (storeId : Option String) (secret : Option String)
      (url : String) (testMode : Bool)
  | listVariants (productIdFilter : Option String)
  | listProducts
  | getProduct (productId : String)
  | getVariant (variantId : String)
  | createCheckout (storeId : String) (variantId : String)
      (email : String) (userIdInDatabase : Option String)
deriving Repr, DecidableEq

/-- Whether a trace entry is a webhook-creating call. -/
def ApiCall.isCreateWebhook : ApiCall → Bool
  | .createWebhook _ _ _ _ => true
  | _ => false

/-- `listWebhooks({ filter: { storeId } })`: an absent filter value returns
every webhook, a present one only the webhooks of that store. -/
def listWebhooksApi (p : Provider) : Option String → List WebhookRow
  | none => p.webhooks
  | some sid => p.webhooks.filter (fun wh => wh.storeId == some sid)

/-- The `find` inside `hasWebhook`: among the webhooks listed with the
`process.env.LEMONSQUEEZY_STORE_ID` filter, the first whose `url` equals
the configured webhook URL and whose `test_mode` is set. -/
def lsWebhookFound (env : Env) (p : Provider) : Option WebhookRow :=
  (listWebhooksApi p env.LEMONSQUEEZY_STORE_ID).find?
    (fun wh => wh.url == env.LEMON_SQUEEZY_WEBHOOK_URL.getD "" && wh.test_mode)

/-- `hasWebhook()`: throws when the webhook URL is falsy, otherwise lists
the provider's webhooks filtered by `process.env.LEMONSQUEEZY_STORE_ID`
and finds one whose `url` equals the configured URL and whose
`test_mode` is set. -/
def hasWebhook (env : Env) (p : Provider) :
    Except String (Option WebhookRow) × List ApiCall :=
  if strFalsy env.LEMON_SQUEEZY_WEBHOOK_URL then
    (.error "Missing required WEBHOOK_URL env variable. Please, set it in your .env file.", [])
  else
    (.ok (lsWebhookFound env p), [ApiCall.listWebhooks env.LEMONSQUEEZY_STORE_ID])

/-- The webhook record the provider registers on `createWebhook`: created
in the store given by `env.LEMON_SQUEEZY_STORE_ID`, at the configured
URL, in test mode. -/
def createdWebhookRow (env : Env) : WebhookRow :=
  { storeId := env.LEMON_SQUEEZY_STORE_ID,
    url := env.LEMON_SQUEEZY_WEBHOOK_URL.getD "", test_mode := true }

/-- `createLsWebhook`: admin-only; throws on a falsy webhook URL; creates
the webhook only when `hasWebhook` found none.  The store id and secret
are passed to `createWebhook` through TypeScript non-null assertions
(`env.LEMON_SQUEEZY_STORE_ID!`, `env.LEMON_SQUEEZY_WEBHOOK_SECRET!`),
which perform no runtime check, so the `Option` values flow through
unchecked. -/
def createLsWebhook (env : Env) (user : SessionUser) (p : Provider) :
    Except String Unit × Provider × List ApiCall :=
  if user.role != "SUPER_ADMIN" then
    (.error "Unauthorized access to the resource", p, [])
  else if strFalsy env.LEMON_SQUEEZY_WEBHOOK_URL then
    (.error "Missing required LEMON_SQUEEZY_WEBHOOK_URL env variable. Please, set it in your .env file.", p, [])
  else
    let webHookUrl := env.LEMON_SQUEEZY_WEBHOOK_URL.getD ""
    match hasWebhook env p with
    | (.error e, calls) => (.error e, p, calls)
    | (.ok webHook, calls) =>
      match webHook with
      | some _ => (.ok (), p, calls)
      | none =>
        (.ok (),
         { p with webhooks := p.webhooks ++ [createdWebhookRow env] },
         calls ++ [ApiCall.createWebhook env.LEMON_SQUEEZY_STORE_ID
            env.LEMON_SQUEEZY_WEBHOOK_SECRET webHookUrl true])

/-- `getWebhook`: a direct pass-through to `hasWebhook`. -/
def getWebhook (env : Env) (p : Provider) :
    Except String (Option WebhookRow) × List ApiCall :=
  hasWebhook env p

/-- The result record of `getSubscriptionByUserId`.  `variant` is the
value of the ternary `subscription?.variantId ? await getVariant(...) : null`:
`none` is the `null` branch, `some r` a provider response (itself optional,
the provider may know no such variant). -/
structure SubscriptionResult where
  subscription : Option SubscriptionRow
  variant : Option (Option VariantRow)
  plan : Option PlanRow
deriving Repr, DecidableEq

/-- `ctx.db.plan.findFirst({ where: { lemonSqueezyVariantId: f } })` where
`f` may be `undefined`: Prisma ignores an `undefined` filter value, so a
`none` filter matches every row and the first row of the table is
returned. -/
def planFindFirst (filter : Option String) (plans : List PlanRow) : Option PlanRow :=
  match filter with
  | none => plans.head?
  | some vid => plans.find? (fun pl => pl.lemonSqueezyVariantId == vid)

/-- `getSubscriptionByUserId`: throws when the session has no user; looks
up the user's subscription; calls `getVariant` only when the subscription
exists and its `variantId` is truthy; looks up the plan with the possibly
absent `subscription?.variantId` as filter. -/
def getSubscriptionByUserId (session_user : Option SessionUser) (p : Provider)
    (db : DB) : Except String SubscriptionResult × List ApiCall :=
  match session_user with
  | none => (.error "User not found in session", [])
  | some user =>
    let subscription := db.subscriptions.find? (fun s => s.userId == user.id)
    let variantAndCalls : Option (Option VariantRow) × List ApiCall :=
      match subscription with
      | some s =>
        if s.variantId != "" then
          ((p.variantsData.getD []).find? (fun v => v.id == s.variantId) |> some,
           [ApiCall.getVariant s.variantId])
        else (none, [])
      | none => (none, [])
    let plan := planFindFirst (subscription.map (·.variantId)) db.plans
    (.ok { subscription := subscription, variant := variantAndCalls.1, plan := plan },
     variantAndCalls.2)

/-- The input of `getProductById`. -/
structure GetProductByIdInput where
  productId : String
  hideDefaultVariant : Option Bool
deriving Repr, DecidableEq

/-- `getProduct(productId)`: the response's `data`, `none` when the
provider has no data for that id. -/
def getProductApi (p : Provider) (productId : String) : Option ProductRow :=
  p.productsData.bind (fun ps => ps.find? (fun pr => pr.id == productId))

/-- `listVariants({ filter: { productId } })`: the response's `data.data`,
`none` when the response carries no data. -/
def listVariantsByProductApi (p : Provider) (productId : String) :
    Option (List VariantRow) :=
  p.variantsData.map (fun vs => vs.filter (fun v => v.product_id == productId))

/-- `getProductById`: fetches the product and its variants, optionally
hiding variants whose status is `pending`; it never throws — when a
response carries no data the corresponding component is `undefined`
(`none`). -/
def getProductById (p : Provider) (input : GetProductByIdInput) :
    Except String (Option ProductRow × Option (List VariantRow)) × List ApiCall :=
  let getProductQuery := getProductApi p input.productId
  let getProductVariantsQuery := listVariantsByProductApi p input.productId
  let variants := getProductVariantsQuery.map (fun vs => vs.filter (fun variant =>
    if input.hideDefaultVariant == some true then variant.status != "pending" else true))
  (.ok (getProductQuery, variants),
   [ApiCall.getProduct input.productId, ApiCall.listVariants (some input.productId)])

/-- The input of `createCheckoutForVariant`. -/
structure CheckoutInput where
  variantId : String
  embed : Option Bool
deriving Repr, DecidableEq

/-- The provider's checkout response, echoing what was passed to
`createCheckout`. -/
structure Checkout where
  storeId : String
  variantId : String
  email : String
  userIdInDatabase : Option String
  redirectUrl : String
  embed : Option Bool
deriving Repr, DecidableEq

/-- `createCheckoutForVariant`: a public procedure, so the session user is
optional; throws on a falsy `LEMON_SQUEEZY_STORE_ID`; otherwise calls
`createCheckout` with `user?.email ?? "undefined"` as the customer email
and `user?.id` as the custom `userIdInDatabase`, and returns the
checkout. -/
def createCheckoutForVariant (env : Env) (session_user : Option SessionUser)
    (input : CheckoutInput) : Except String Checkout × List ApiCall :=
  if strFalsy env.LEMON_SQUEEZY_STORE_ID then
    (.error "Missing required LEMON_SQUEEZY_STORE_ID env variable. Please, set it in your .env file.", [])
  else
    let sid := env.LEMON_SQUEEZY_STORE_ID.getD ""
    let email := (session_user.bind (·.email)).getD "undefined"
    let uid := session_user.map (·.id)
    let checkout : Checkout :=
      { storeId := sid, variantId := input.variantId, email := email,
        userIdInDatabase := uid,
        redirectUrl := env.NEXT_PUBLIC_DEPLOYMENT_URL ++ "/billing",
        embed := input.embed }
    (.ok checkout, [ApiCall.createCheckout sid input.variantId email uid])

/-- The `findUnique` predicate on `Plan.lemonSqueezyVariantId`. -/
def planKey (vid : String) : PlanRow → Bool :=
  fun pl => pl.lemonSqueezyVariantId == vid

/-- The plan row created for a variant: its external id and name. -/
def planOfVariant (v : VariantRow) : PlanRow :=
  { lemonSqueezyVariantId := v.id, name := v.name }

/-- The per-variant body of `createPlansFromLemonSqueezyVariants`:
`findUnique` on `lemonSqueezyVariantId`, then `create` when absent.
`Promise.all(variants.map ...)` is folded left to right; `create` appends
the new row at the end of the table. -/
def createPlanForVariant (acc : List PlanRow × DB) (variant : VariantRow) :
    List PlanRow × DB :=
  let existingPlan := acc.2.plans.find? (planKey variant.id)
  match existingPlan with
  | some pl => (acc.1 ++ [pl], acc.2)
  | none =>
    let newPlan : PlanRow := planOfVariant variant
    (acc.1 ++ [newPlan], { acc.2 with plans := acc.2.plans ++ [newPlan] })

/-- `createPlansFromLemonSqueezyVariants`: admin-only; throws when the
`listVariants` response carries no data; otherwise creates a plan per
variant unless one with that `lemonSqueezyVariantId` already exists, and
returns one plan per fetched variant. -/
def createPlansFromLemonSqueezyVariants (user : SessionUser) (p : Provider)
    (db : DB) : Except String (List PlanRow) × DB × List ApiCall :=
  if user.role != "SUPER_ADMIN" then
    (.error "Unauthorized access to the resource", db, [])
  else
    match p.variantsData with
    | none => (.error "Failed to fetch variants from Lemon Squeezy.", db,
        [ApiCall.listVariants none])
    | some variants =>
      let folded := variants.foldl createPlanForVariant ([], db)
      (.ok folded.1, folded.2, [ApiCall.listVariants none])

/-- A product joined with its variants as returned by
`getProductsFromLemonSqueezy`; each variant carries the computed
`hasCorrespondingPlanInDB` flag. -/
structure ProductWithVariants where
  product : ProductRow
  variants : Option (List (VariantRow × Bool))
deriving Repr, DecidableEq

/-- `getProductsFromLemonSqueezy`: lists products and variants, marks each
variant with whether a plan with its id exists in the database, and
returns the joined structure; it never throws — a response with no data
yields `undefined` (`none`). -/
def getProductsFromLemonSqueezy (p : Provider) (db : DB) :
    Except String (Option (List ProductWithVariants)) × List ApiCall :=
  let planVariantIdsInDB := db.plans.map (·.lemonSqueezyVariantId)
  let productsWithVariants := p.productsData.map (fun prods => prods.map
    (fun product =>
      let productVariants := p.variantsData.map (fun vs =>
        (vs.filter (fun variant => variant.product_id == product.id)).map
          (fun variant => (variant, planVariantIdsInDB.contains variant.id)))
      { product := product, variants := productVariants }))
  (.ok productsWithVariants, [ApiCall.listProducts, ApiCall.listVariants none])

/-- The `featureUsage.upsert` on unique key `userId_date`: increment the
(unique) row with that key when present, otherwise append a freshly
created row with `buttonClicks := amount`. -/
def upsertFeatureUsage (uid : String) (d : Nat) (amount : Int) :
    List FeatureUsageRow → List FeatureUsageRow
  | [] => [{ userId := uid, date := d, buttonClicks := amount }]
  | r :: rs =>
    if r.userId == uid && r.date == d then
      { r with buttonClicks := r.buttonClicks + amount } :: rs
    else
      r :: upsertFeatureUsage uid d amount rs

/-- `spendCredits(amount)`: inside a transaction, upsert the caller's
`FeatureUsage` row for the start of today.  `today` is the normalised
start-of-day timestamp. -/
def spendCredits (user : SessionUser) (today : Nat) (amount : Int) (db : DB) : DB :=
  { db with featureUsage := upsertFeatureUsage user.id today amount db.featureUsage }

/-- The result of `getUsageForUser`. -/
structure UsageResult where
  totalButtonClicksToday : Int
  totalButtonClicksThisMonth : Int
deriving Repr, DecidableEq

/-- `getUsageForUser`: `findFirst` of the caller's usage row with
`date ≥ todayStart`, `findMany` of the rows with `date ≥ monthStart`,
folded into the two totals. -/
def getUsageForUser (user : SessionUser) (todayStart monthStart : Nat)
    (db : DB) : UsageResult :=
  let todaysUsage := db.featureUsage.find?
    (fun r => r.userId == user.id && decide (todayStart ≤ r.date))
  let currentMonthUsage := db.featureUsage.filter
    (fun r => r.userId == user.id && decide (monthStart ≤ r.date))
  let totalButtonClicksThisMonth :=
    currentMonthUsage.foldl (fun acc usage => acc + usage.buttonClicks) 0
  let totalButtonClicksToday := (todaysUsage.map (·.buttonClicks)).getD 0
  { totalButtonClicksToday := totalButtonClicksToday,
    totalButtonClicksThisMonth := totalButtonClicksThisMonth }

/-- `getOneTimePurchasesForUser`: the caller's `OneTimePurchase` rows. -/
def getOneTimePurchasesForUser (user : SessionUser) (db : DB) :
    List OneTimePurchaseRow :=
  db.oneTimePurchases.filter (fun otp => otp.userId == user.id)

/-- `getAllVariants`: a pass-through to `listVariants`. -/
def getAllVariants (p : Provider) :
    Option (List VariantRow) × List ApiCall :=
  (p.variantsData, [ApiCall.listVariants none])

/-- A sequence of `spendCredits` calls made on the same day, left to
right. -/
def spendMany (user : SessionUser) (today : Nat) (amounts : List Int)
    (db : DB) : DB :=
  amounts.foldl (fun acc a => spendCredits user today a acc) db

/-- The `(userId, date)` uniqueness invariant of the `FeatureUsage` table:
no two rows share the key. -/
def featureUsageKeyUnique (l : List FeatureUsageRow) : Prop :=
  l.Pairwise (fun r s => r.userId ≠ s.userId ∨ r.date ≠ s.date)

/-- A non-admin session user. -/
def exUser : SessionUser := { id := "u1", email := none, role := "USER" }

/-- A `SUPER_ADMIN` session user. -/
def exAdmin : SessionUser := { id := "a1", email := none, role := "SUPER_ADMIN" }

/-- A provider with no webhooks and no data behind its list endpoints. -/
def exProviderEmpty : Provider :=
  { webhooks := [], variantsData := none, productsData := none }

/-- A store holding one `FeatureUsage` row for `exUser`, dated day 11. -/
def exDB0 : DB :=
  { featureUsage := [{ userId := "u1", date := 11, buttonClicks := 5 }],
    plans := [], subscriptions := [], oneTimePurchases := [] }

/-- The empty store. -/
def exDBEmpty : DB :=
  { featureUsage := [], plans := [], subscriptions := [], oneTimePurchases := [] }

/-- An environment with a webhook URL but no store id and no webhook
secret. -/
def exEnvMissingStore : Env :=
  { LEMON_SQUEEZY_WEBHOOK_URL := some "https://example.com/hook",
    LEMON_SQUEEZY_STORE_ID := none,
    LEMON_SQUEEZY_WEBHOOK_SECRET := none,
    LEMONSQUEEZY_STORE_ID := none,
    NEXT_PUBLIC_DEPLOYMENT_URL := "https://example.com" }

/-- An environment whose two store-id variables are set to different
values: `process.env.LEMONSQUEEZY_STORE_ID` is `"A"` while
`env.LEMON_SQUEEZY_STORE_ID` is `"B"`. -/
def exEnvMismatch : Env :=
  { LEMON_SQUEEZY_WEBHOOK_URL := some "https://example.com/hook",
    LEMON_SQUEEZY_STORE_ID := some "B",
    LEMON_SQUEEZY_WEBHOOK_SECRET := some "s",
    LEMONSQUEEZY_STORE_ID := some "A",
    NEXT_PUBLIC_DEPLOYMENT_URL := "https://example.com" }

/-- A fully configured environment whose two store-id variables agree. -/
def exEnvFull : Env :=
  { LEMON_SQUEEZY_WEBHOOK_URL := some "https://example.com/hook",
    LEMON_SQUEEZY_STORE_ID := some "S",
    LEMON_SQUEEZY_WEBHOOK_SECRET := some "s",
    LEMONSQUEEZY_STORE_ID := some "S",
    NEXT_PUBLIC_DEPLOYMENT_URL := "https://example.com" }

/-- A provider carrying two variants, used as a concrete input. -/
def exProviderTwoVariants : Provider :=
  { webhooks := [],
    variantsData := some [
      { id := "v1", name := "Basic", status := "published", product_id := "p1" },
      { id := "v2", name := "Pro", status := "published", product_id := "p1" }],
    productsData := none }

/-- A store already holding a plan for variant `v1`. -/
def exDBOnePlan : DB :=
  { featureUsage := [], plans := [{ lemonSqueezyVariantId := "v1", name := "Old" }],
    subscriptions := [], oneTimePurchases := [] }

/-! ## Theorems -/

/-- C3: a caller whose session role is not `SUPER_ADMIN` gets a thrown
error with a plain string message from both `createLsWebhook` and
`createPlansFromLemonSqueezyVariants`; in both cases the provider state
and the store are returned unchanged and the trace of provider API calls
is empty, so no webhook-creating call and no database write happen. -/
theorem non_admin_rejected (env : Env) (user : SessionUser) (p : Provider)
    (db : DB) (hrole : user.role ≠ "SUPER_ADMIN") :
    createLsWebhook env user p
      = (.error "Unauthorized access to the resource", p, []) ∧
    createPlansFromLemonSqueezyVariants user p db
      = (.error "Unauthorized access to the resource", db, []) := by
  have h : (user.role != "SUPER_ADMIN") = true := by
    simpa [bne_iff_ne] using hrole
  exact ⟨by simp [createLsWebhook, h], by simp [createPlansFromLemonSqueezyVariants, h]⟩

/-- Witness for C3 at a concrete non-admin user. -/
theorem non_admin_rejected_witness :
    createLsWebhook exEnvFull exUser exProviderEmpty
      = (.error "Unauthorized access to the resource", exProviderEmpty, []) ∧
    createPlansFromLemonSqueezyVariants exUser exProviderEmpty exDBEmpty
      = (.error "Unauthorized access to the resource", exDBEmpty, []) :=
  non_admin_rejected exEnvFull exUser exProviderEmpty exDBEmpty (by decide)

/-- C9: without an authenticated session user, `createCheckoutForVariant`
still calls `createCheckout`, with the customer email set to the literal
string `"undefined"` and the custom `userIdInDatabase` field absent, and
returns the provider's checkout response. -/
theorem createCheckout_no_session (env : Env) (input : CheckoutInput)
    (sid : String) (hsid : env.LEMON_SQUEEZY_STORE_ID = some sid)
    (hne : sid ≠ "") :
    createCheckoutForVariant env none input =
      (.ok { storeId := sid, variantId := input.variantId,
             email := "undefined", userIdInDatabase := none,
             redirectUrl := env.NEXT_PUBLIC_DEPLOYMENT_URL ++ "/billing",
             embed := input.embed },
       [ApiCall.createCheckout sid input.variantId "undefined" none]) := by
  have h : strFalsy (some sid) = false := beq_eq_false_iff_ne.mpr hne
  simp [createCheckoutForVariant, hsid, h]

/-- Witness for C9 at a concrete configured environment and input. -/
theorem createCheckout_no_session_witness :
    createCheckoutForVariant exEnvFull none { variantId := "v1", embed := none } =
      (.ok { storeId := "S", variantId := "v1",
             email := "undefined", userIdInDatabase := none,
             redirectUrl := "https://example.com" ++ "/billing",
             embed := none },
       [ApiCall.createCheckout "S" "v1" "undefined" none]) :=
  createCheckout_no_session exEnvFull { variantId := "v1", embed := none } "S"
    (by decide) (by decide)

/-- C10: for an authenticated user with no stored subscription row,
`getSubscriptionByUserId` returns `subscription = null` and
`variant = null`, performs no provider call (in particular no
`getVariant`), and the plan lookup is still executed with the absent
`variantId` (a `none` filter, which Prisma ignores). -/
theorem getSubscription_no_row (user : SessionUser) (p : Provider) (db : DB)
    (hnone : ∀ s ∈ db.subscriptions, s.userId ≠ user.id) :
    getSubscriptionByUserId (some user) p db =
      (.ok { subscription := none, variant := none,
             plan := planFindFirst none db.plans }, []) := by
  have hfind : db.subscriptions.find? (fun s => s.userId == user.id) = none := by
    rw [List.find?_eq_none]
    intro s hs
    simpa using hnone s hs
  simp [getSubscriptionByUserId, hfind]

/-- Witness for C10 at a concrete store with a plan but no subscription. -/
theorem getSubscription_no_row_witness :
    getSubscriptionByUserId (some exUser) exProviderEmpty
      { featureUsage := [], plans := [{ lemonSqueezyVariantId := "v9", name := "N" }],
        subscriptions := [], oneTimePurchases := [] } =
      (.ok { subscription := none, variant := none,
             plan := planFindFirst none [{ lemonSqueezyVariantId := "v9", name := "N" }] },
       []) :=
  getSubscription_no_row exUser exProviderEmpty
    { featureUsage := [], plans := [{ lemonSqueezyVariantId := "v9", name := "N" }],
      subscriptions := [], oneTimePurchases := [] }
    (by intro s hs; simp at hs)

/-- C7 counterexample: the claim says every provider-backed procedure
throws on a response carrying no data, naming `getProductById` and
`getProductsFromLemonSqueezy`; but on a provider whose product and
variant responses carry no data both return `.ok` with `undefined`
(`none`) components instead of throwing. -/
theorem getProductById_no_data_counterexample :
    exProviderEmpty.productsData = none ∧
    exProviderEmpty.variantsData = none ∧
    (getProductById exProviderEmpty { productId := "p", hideDefaultVariant := none }).1
      = .ok (none, none) ∧
    (getProductsFromLemonSqueezy exProviderEmpty exDBEmpty).1 = .ok none := by
  refine ⟨rfl, rfl, rfl, rfl⟩

/-- C7 amended: `createPlansFromLemonSqueezyVariants` throws a plain
string error when the `listVariants` response carries no data, but
`getProductById` and `getProductsFromLemonSqueezy` never throw: they
return `.ok` for every provider state, with `none` standing for the
missing data. -/
theorem no_data_error_behavior (user : SessionUser) (p : Provider) (db : DB)
    (input : GetProductByIdInput) (hrole : user.role = "SUPER_ADMIN")
    (hnone : p.variantsData = none) :
    createPlansFromLemonSqueezyVariants user p db
      = (.error "Failed to fetch variants from Lemon Squeezy.", db,
         [ApiCall.listVariants none]) ∧
    (∃ res, (getProductById p input).1 = .ok res) ∧
    (∃ res2, (getProductsFromLemonSqueezy p db).1 = .ok res2) := by
  have h : (user.role != "SUPER_ADMIN") = false := by
    simp [hrole]
  refine ⟨?_, ⟨_, rfl⟩, ⟨_, rfl⟩⟩
  simp [createPlansFromLemonSqueezyVariants, h, hnone]

/-- Witness for C7 at a concrete admin and empty provider. -/
theorem no_data_error_behavior_witness :
    createPlansFromLemonSqueezyVariants exAdmin exProviderEmpty exDBEmpty
      = (.error "Failed to fetch variants from Lemon Squeezy.", exDBEmpty,
         [ApiCall.listVariants none]) ∧
    (∃ res, (getProductById exProviderEmpty
        { productId := "q", hideDefaultVariant := some true }).1 = .ok res) ∧
    (∃ res2, (getProductsFromLemonSqueezy exProviderEmpty exDBEmpty).1 = .ok res2) :=
  no_data_error_behavior exAdmin exProviderEmpty exDBEmpty
    { productId := "q", hideDefaultVariant := some true } (by decide) rfl

/-- C4 counterexample: the claim says `createLsWebhook` throws before the
provider call when the store id or webhook secret it passes to
`createWebhook` is missing; but with both missing (and the webhook URL
configured) it throws nothing and performs the `createWebhook` network
call, passing the missing values through. -/
theorem createLsWebhook_missing_store_counterexample :
    strFalsy exEnvMissingStore.LEMON_SQUEEZY_STORE_ID = true ∧
    strFalsy exEnvMissingStore.LEMON_SQUEEZY_WEBHOOK_SECRET = true ∧
    (createLsWebhook exEnvMissingStore exAdmin exProviderEmpty).1 = .ok () ∧
    (createLsWebhook exEnvMissingStore exAdmin exProviderEmpty).2.2
      = [ApiCall.listWebhooks none,
         ApiCall.createWebhook none none "https://example.com/hook" true] := by
  refine ⟨rfl, rfl, rfl, rfl⟩

/-- C4 amended: a falsy `LEMON_SQUEEZY_WEBHOOK_URL` makes `hasWebhook`,
`getWebhook` and `createLsWebhook` throw with an empty provider-call
trace, and a falsy `LEMON_SQUEEZY_STORE_ID` makes
`createCheckoutForVariant` throw with an empty trace; the store id and
webhook secret that `createLsWebhook` passes to `createWebhook` are not
checked. -/
theorem missing_env_throws_before_call (env : Env) (user : SessionUser)
    (su : Option SessionUser) (p : Provider) (input : CheckoutInput) :
    (strFalsy env.LEMON_SQUEEZY_WEBHOOK_URL = true →
      (∃ m, (hasWebhook env p).1 = .error m) ∧ (hasWebhook env p).2 = [] ∧
      (∃ m2, (getWebhook env p).1 = .error m2) ∧ (getWebhook env p).2 = [] ∧
      (∃ m3, (createLsWebhook env user p).1 = .error m3) ∧
      (createLsWebhook env user p).2.2 = []) ∧
    (strFalsy env.LEMON_SQUEEZY_STORE_ID = true →
      (∃ m4, (createCheckoutForVariant env su input).1 = .error m4) ∧
      (createCheckoutForVariant env su input).2 = []) := by
  constructor
  · intro hurl
    have hhw : hasWebhook env p
        = (.error "Missing required WEBHOOK_URL env variable. Please, set it in your .env file.", []) := by
      simp [hasWebhook, hurl]
    have hcl : (∃ m3, (createLsWebhook env user p).1 = .error m3) ∧
        (createLsWebhook env user p).2.2 = [] := by
      by_cases hrole : (user.role != "SUPER_ADMIN") = true
      · exact ⟨⟨"Unauthorized access to the resource",
          by simp [createLsWebhook, hrole]⟩, by simp [createLsWebhook, hrole]⟩
      · exact ⟨⟨"Missing required LEMON_SQUEEZY_WEBHOOK_URL env variable. Please, set it in your .env file.",
          by simp [createLsWebhook, hrole, hurl]⟩,
          by simp [createLsWebhook, hrole, hurl]⟩
    exact ⟨⟨"Missing required WEBHOOK_URL env variable. Please, set it in your .env file.",
      by simp [hhw]⟩, by simp [hhw],
      ⟨"Missing required WEBHOOK_URL env variable. Please, set it in your .env file.",
        by simp [getWebhook, hhw]⟩,
      by simp [getWebhook, hhw], hcl.1, hcl.2⟩
  · intro hsid
    have hc : createCheckoutForVariant env su input
        = (.error "Missing required LEMON_SQUEEZY_STORE_ID env variable. Please, set it in your .env file.", []) := by
      simp [createCheckoutForVariant, hsid]
    exact ⟨⟨"Missing required LEMON_SQUEEZY_STORE_ID env variable. Please, set it in your .env file.",
      by simp [hc]⟩, by simp [hc]⟩

/-- Witness for C4: the theorem applied at an environment with every
optional variable absent, with both antecedents discharged concretely. -/
theorem missing_env_throws_before_call_witness :
    ((∃ m, (hasWebhook
        { LEMON_SQUEEZY_WEBHOOK_URL := none, LEMON_SQUEEZY_STORE_ID := none,
          LEMON_SQUEEZY_WEBHOOK_SECRET := none, LEMONSQUEEZY_STORE_ID := none,
          NEXT_PUBLIC_DEPLOYMENT_URL := "https://example.com" }
        exProviderEmpty).1 = .error m) ∧
      (hasWebhook
        { LEMON_SQUEEZY_WEBHOOK_URL := none, LEMON_SQUEEZY_STORE_ID := none,
          LEMON_SQUEEZY_WEBHOOK_SECRET := none, LEMONSQUEEZY_STORE_ID := none,
          NEXT_PUBLIC_DEPLOYMENT_URL := "https://example.com" }
        exProviderEmpty).2 = [] ∧
      (∃ m2, (getWebhook
        { LEMON_SQUEEZY_WEBHOOK_URL := none, LEMON_SQUEEZY_STORE_ID := none,
          LEMON_SQUEEZY_WEBHOOK_SECRET := none, LEMONSQUEEZY_STORE_ID := none,
          NEXT_PUBLIC_DEPLOYMENT_URL := "https://example.com" }
        exProviderEmpty).1 = .error m2) ∧
      (getWebhook
        { LEMON_SQUEEZY_WEBHOOK_URL := none, LEMON_SQUEEZY_STORE_ID := none,
          LEMON_SQUEEZY_WEBHOOK_SECRET := none, LEMONSQUEEZY_STORE_ID := none,
          NEXT_PUBLIC_DEPLOYMENT_URL := "https://example.com" }
        exProviderEmpty).2 = [] ∧
      (∃ m3, (createLsWebhook
        { LEMON_SQUEEZY_WEBHOOK_URL := none, LEMON_SQUEEZY_STORE_ID := none,
          LEMON_SQUEEZY_WEBHOOK_SECRET := none, LEMONSQUEEZY_STORE_ID := none,
          NEXT_PUBLIC_DEPLOYMENT_URL := "https://example.com" }
        exAdmin exProviderEmpty).1 = .error m3) ∧
      (createLsWebhook
        { LEMON_SQUEEZY_WEBHOOK_URL := none, LEMON_SQUEEZY_STORE_ID := none,
          LEMON_SQUEEZY_WEBHOOK_SECRET := none, LEMONSQUEEZY_STORE_ID := none,
          NEXT_PUBLIC_DEPLOYMENT_URL := "https://example.com" }
        exAdmin exProviderEmpty).2.2 = []) ∧
    ((∃ m4, (createCheckoutForVariant
        { LEMON_SQUEEZY_WEBHOOK_URL := none, LEMON_SQUEEZY_STORE_ID := none,
          LEMON_SQUEEZY_WEBHOOK_SECRET := none, LEMONSQUEEZY_STORE_ID := none,
          NEXT_PUBLIC_DEPLOYMENT_URL := "https://example.com" }
        none { variantId := "v1", embed := none }).1 = .error m4) ∧
      (createCheckoutForVariant
        { LEMON_SQUEEZY_WEBHOOK_URL := none, LEMON_SQUEEZY_STORE_ID := none,
          LEMON_SQUEEZY_WEBHOOK_SECRET := none, LEMONSQUEEZY_STORE_ID := none,
          NEXT_PUBLIC_DEPLOYMENT_URL := "https://example.com" }
        none { variantId := "v1", embed := none }).2 = []) :=
  ⟨(missing_env_throws_before_call _ exAdmin none exProviderEmpty
      { variantId := "v1", embed := none }).1 (by decide),
   (missing_env_throws_before_call _ exAdmin none exProviderEmpty
      { variantId := "v1", embed := none }).2 (by decide)⟩

/-! ## Helper lemmas on list operations -/

lemma find?_eq_head?_filter {α : Type _} (p : α → Bool) (l : List α) :
    l.find? p = (l.filter p).head? := by
  induction l with
  | nil => rfl
  | cons x xs ih =>
    by_cases h : p x
    · rw [List.find?_cons_of_pos _ h, List.filter_cons_of_pos h, List.head?_cons]
    · rw [List.find?_cons_of_neg _ h, List.filter_cons_of_neg h, ih]

lemma foldl_add_buttonClicks (l : List FeatureUsageRow) (init : Int) :
    l.foldl (fun acc usage => acc + usage.buttonClicks) init
      = init + (l.map (·.buttonClicks)).sum := by
  induction l generalizing init with
  | nil => simp
  | cons x xs ih =>
    simp only [List.foldl_cons, List.map_cons, List.sum_cons, ih]
    ring

/-- C8: `getUsageForUser` reports `totalButtonClicksThisMonth` equal to
the sum of `buttonClicks` over the caller's rows dated on or after the
start of the month; `totalButtonClicksToday` is `0` when the caller has
no row dated on or after the start of today, and the `buttonClicks` of
that row when there is exactly one. -/
theorem getUsageForUser_totals (user : SessionUser) (ts ms : Nat) (db : DB) :
    (getUsageForUser user ts ms db).totalButtonClicksThisMonth
      = ((db.featureUsage.filter
          (fun r => r.userId == user.id && decide (ms ≤ r.date))).map
          (·.buttonClicks)).sum ∧
    (db.featureUsage.filter (fun r => r.userId == user.id && decide (ts ≤ r.date)) = [] →
      (getUsageForUser user ts ms db).totalButtonClicksToday = 0) ∧
    (∀ r, db.featureUsage.filter
        (fun r => r.userId == user.id && decide (ts ≤ r.date)) = [r] →
      (getUsageForUser user ts ms db).totalButtonClicksToday = r.buttonClicks) := by
  refine ⟨?_, ?_, ?_⟩
  · simp [getUsageForUser, foldl_add_buttonClicks]
  · intro hnil
    simp [getUsageForUser, find?_eq_head?_filter, hnil]
  · intro r hone
    simp [getUsageForUser, find?_eq_head?_filter, hone]

/-- Witness for C8 at a store with exactly one row on or after day 10. -/
theorem getUsageForUser_totals_witness :
    (getUsageForUser exUser 10 0 exDB0).totalButtonClicksThisMonth
      = ((exDB0.featureUsage.filter
          (fun r => r.userId == exUser.id && decide (0 ≤ r.date))).map
          (·.buttonClicks)).sum ∧
    (getUsageForUser exUser 10 0 exDB0).totalButtonClicksToday
      = ({ userId := "u1", date := 11, buttonClicks := 5 } : FeatureUsageRow).buttonClicks :=
  ⟨(getUsageForUser_totals exUser 10 0 exDB0).1,
   (getUsageForUser_totals exUser 10 0 exDB0).2.2
     { userId := "u1", date := 11, buttonClicks := 5 } (by decide)⟩

/-! ## Helper lemmas on the usage upsert -/

lemma upsertFeatureUsage_of_no_match (uid : String) (d : Nat) (a : Int)
    (l : List FeatureUsageRow)
    (h : ∀ r ∈ l, ¬(r.userId = uid ∧ r.date = d)) :
    upsertFeatureUsage uid d a l = l ++ [{ userId := uid, date := d, buttonClicks := a }] := by
  induction l with
  | nil => rfl
  | cons x xs ih =>
    have hx : (x.userId == uid && x.date == d) = false := by
      have := h x (List.mem_cons_self x xs)
      simp only [Bool.and_eq_false_iff, beq_eq_false_iff_ne, ne_eq]
      by_cases hxu : x.userId = uid
      · exact Or.inr (fun hxd => this ⟨hxu, hxd⟩)
      · exact Or.inl hxu
    simp only [upsertFeatureUsage, hx, Bool.false_eq_true, if_false, List.cons_append,
      List.cons.injEq, true_and]
    exact ih (fun r hr => h r (List.mem_cons_of_mem x hr))

lemma upsertFeatureUsage_mid (uid : String) (d : Nat) (a : Int)
    (l₁ l₂ : List FeatureUsageRow) (r : FeatureUsageRow)
    (h₁ : ∀ x ∈ l₁, ¬(x.userId = uid ∧ x.date = d))
    (hr : r.userId = uid ∧ r.date = d) :
    upsertFeatureUsage uid d a (l₁ ++ r :: l₂)
      = l₁ ++ { r with buttonClicks := r.buttonClicks + a } :: l₂ := by
  induction l₁ with
  | nil =>
    have hx : (r.userId == uid && r.date == d) = true := by
      simp [hr.1, hr.2]
    simp [upsertFeatureUsage, hx]
  | cons x xs ih =>
    have hx : (x.userId == uid && x.date == d) = false := by
      have := h₁ x (List.mem_cons_self x xs)
      simp only [Bool.and_eq_false_iff, beq_eq_false_iff_ne, ne_eq]
      by_cases hxu : x.userId = uid
      · exact Or.inr (fun hxd => this ⟨hxu, hxd⟩)
      · exact Or.inl hxu
    simp only [List.cons_append, upsertFeatureUsage, hx, Bool.false_eq_true, if_false,
      List.cons.injEq, true_and]
    exact ih (fun y hy => h₁ y (List.mem_cons_of_mem x hy))

lemma mem_upsertFeatureUsage_key (uid : String) (d : Nat) (a : Int)
    (l : List FeatureUsageRow) (r : FeatureUsageRow)
    (hmem : r ∈ upsertFeatureUsage uid d a l) :
    (r.userId = uid ∧ r.date = d) ∨
      ∃ r₀ ∈ l, r₀.userId = r.userId ∧ r₀.date = r.date := by
  induction l with
  | nil =>
    simp only [upsertFeatureUsage, List.mem_singleton] at hmem
    subst hmem
    exact Or.inl ⟨rfl, rfl⟩
  | cons x xs ih =>
    by_cases hx : (x.userId == uid && x.date == d) = true
    · simp only [upsertFeatureUsage, hx, if_true, List.mem_cons] at hmem
      rcases hmem with hmem | hmem
      · subst hmem
        have hxu : x.userId = uid := by
          have := hx
          simp only [Bool.and_eq_true, beq_iff_eq] at this
          exact this.1
        have hxd : x.date = d := by
          have := hx
          simp only [Bool.and_eq_true, beq_iff_eq] at this
          exact this.2
        exact Or.inl ⟨hxu, hxd⟩
      · exact Or.inr ⟨r, List.mem_cons_of_mem x hmem, rfl, rfl⟩
    · simp only [upsertFeatureUsage, hx, if_false] at hmem
      rcases List.mem_cons.mp hmem with hmem | hmem
      · subst hmem
        exact Or.inr ⟨r, List.mem_cons_self r xs, rfl, rfl⟩
      · rcases ih hmem with h | ⟨r₀, hr₀, hk⟩
        · exact Or.inl h
        · exact Or.inr ⟨r₀, List.mem_cons_of_mem x hr₀, hk⟩

lemma featureUsageKeyUnique_upsert (uid : String) (d : Nat) (a : Int)
    (l : List FeatureUsageRow) (h : featureUsageKeyUnique l) :
    featureUsageKeyUnique (upsertFeatureUsage uid d a l) := by
  induction l with
  | nil =>
    simp [upsertFeatureUsage, featureUsageKeyUnique]
  | cons x xs ih =>
    rw [featureUsageKeyUnique, List.pairwise_cons] at h
    by_cases hx : (x.userId == uid && x.date == d) = true
    · rw [featureUsageKeyUnique]
      simp only [upsertFeatureUsage, hx, if_true]
      rw [List.pairwise_cons]
      exact ⟨fun s hs => h.1 s hs, h.2⟩
    · have hx' : (x.userId == uid && x.date == d) = false := by
        rwa [← Bool.not_eq_true]
      rw [featureUsageKeyUnique]
      simp only [upsertFeatureUsage, hx', Bool.false_eq_true, if_false]
      rw [List.pairwise_cons]
      refine ⟨?_, ih h.2⟩
      intro s hs
      have hxk : ¬(x.userId = uid ∧ x.date = d) := by
        intro hk
        exact hx (by simp [hk.1, hk.2])
      rcases mem_upsertFeatureUsage_key uid d a xs s hs with hk | ⟨r₀, hr₀, hu, hd⟩
      · by_cases hxu : x.userId = uid
        · exact Or.inr (by rw [hk.2]; exact fun hxd => hxk ⟨hxu, hxd⟩)
        · exact Or.inl (by rw [hk.1]; exact hxu)
      · rcases h.1 r₀ hr₀ with hne | hne
        · exact Or.inl (by rw [← hu]; exact hne)
        · exact Or.inr (by rw [← hd]; exact hne)

lemma createPlanForVariant_featureUsage (variants : List VariantRow)
    (ps : List PlanRow) (db : DB) :
    (variants.foldl createPlanForVariant (ps, db)).2.featureUsage
      = db.featureUsage := by
  induction variants generalizing ps db with
  | nil => rfl
  | cons v vs ih =>
    simp only [List.foldl_cons]
    rcases hfind : db.plans.find? (planKey v.id) with _ | pl
    · simp only [createPlanForVariant, hfind]
      exact ih _ _
    · simp only [createPlanForVariant, hfind]
      exact ih _ _

/-- C2: the `(user id, date)` uniqueness invariant of `FeatureUsage` is
preserved: `spendCredits` updates the unique existing row for
`(user, start-of-today)` in place when one is present and appends a new
row only when none exists; and `createPlansFromLemonSqueezyVariants` —
the only other handler that writes to the store — leaves the
`FeatureUsage` table unchanged. -/
theorem featureUsage_invariant_preserved (user : SessionUser) (today : Nat)
    (amount : Int) (db : DB)
    (hinv : featureUsageKeyUnique db.featureUsage) :
    featureUsageKeyUnique (spendCredits user today amount db).featureUsage ∧
    ((∀ r ∈ db.featureUsage, ¬(r.userId = user.id ∧ r.date = today)) →
      (spendCredits user today amount db).featureUsage
        = db.featureUsage ++ [{ userId := user.id, date := today, buttonClicks := amount }]) ∧
    (∀ l₁ l₂ r, db.featureUsage = l₁ ++ r :: l₂ →
      (∀ x ∈ l₁, ¬(x.userId = user.id ∧ x.date = today)) →
      r.userId = user.id → r.date = today →
      (spendCredits user today amount db).featureUsage
        = l₁ ++ { r with buttonClicks := r.buttonClicks + amount } :: l₂) ∧
    (∀ (u₂ : SessionUser) (p : Provider) (db₂ : DB),
      (createPlansFromLemonSqueezyVariants u₂ p db₂).2.1.featureUsage
        = db₂.featureUsage) := by
  refine ⟨featureUsageKeyUnique_upsert _ _ _ _ hinv, ?_, ?_, ?_⟩
  · intro hno
    exact upsertFeatureUsage_of_no_match _ _ _ _ hno
  · intro l₁ l₂ r hsplit h₁ hu hd
    show upsertFeatureUsage user.id today amount db.featureUsage = _
    rw [hsplit]
    exact upsertFeatureUsage_mid _ _ _ _ _ _ h₁ ⟨hu, hd⟩
  · intro u₂ p db₂
    by_cases hrole : (u₂.role != "SUPER_ADMIN") = true
    · simp [createPlansFromLemonSqueezyVariants, hrole]
    · rcases hvd : p.variantsData with _ | variants
      · simp [createPlansFromLemonSqueezyVariants, hrole, hvd]
      · simp only [createPlansFromLemonSqueezyVariants, hrole, Bool.false_eq_true,
          if_false, hvd]
        exact createPlanForVariant_featureUsage variants [] db₂

/-- Witness for C2 at a concrete one-row store satisfying the invariant. -/
theorem featureUsage_invariant_preserved_witness :
    featureUsageKeyUnique (spendCredits exUser 10 3 exDB0).featureUsage ∧
    (spendCredits exUser 10 3 exDB0).featureUsage
      = exDB0.featureUsage ++ [{ userId := "u1", date := 10, buttonClicks := 3 }] :=
  ⟨(featureUsage_invariant_preserved exUser 10 3 exDB0
      (by simp [featureUsageKeyUnique, exDB0])).1,
   (featureUsage_invariant_preserved exUser 10 3 exDB0
      (by simp [featureUsageKeyUnique, exDB0])).2.1 (by decide)⟩

/-! ## Helper lemmas on repeated `spendCredits` calls -/

lemma spendMany_featureUsage (user : SessionUser) (today : Nat)
    (amounts : List Int) (db : DB) :
    (spendMany user today amounts db).featureUsage
      = amounts.foldl (fun acc a => upsertFeatureUsage user.id today a acc)
          db.featureUsage := by
  induction amounts generalizing db with
  | nil => rfl
  | cons a as ih =>
    simp only [spendMany, List.foldl_cons] at *
    exact ih (spendCredits user today a db)

lemma foldl_upsert_accumulates (uid : String) (d : Nat) (amounts : List Int)
    (l : List FeatureUsageRow) (c : Int)
    (h : ∀ r ∈ l, ¬(r.userId = uid ∧ r.date = d)) :
    amounts.foldl (fun acc a => upsertFeatureUsage uid d a acc)
        (l ++ [{ userId := uid, date := d, buttonClicks := c }])
      = l ++ [{ userId := uid, date := d, buttonClicks := c + amounts.sum }] := by
  induction amounts generalizing c with
  | nil => simp
  | cons a as ih =>
    rw [List.foldl_cons,
      upsertFeatureUsage_mid uid d a l [] { userId := uid, date := d, buttonClicks := c }
        h ⟨rfl, rfl⟩]
    have := ih (c + a)
    simp only [List.sum_cons] at *
    rw [this]
    ring_nf

/-- C1 counterexample: the claim quantifies over every starting state with
no `FeatureUsage` row for that user and that day; with a row for the same
user dated after that day (day 11 vs day 10), two `spendCredits` calls of
amount 1 each leave the day-10 row holding 2, yet `getUsageForUser`
reports `totalButtonClicksToday = 5` — its `findFirst` with `date ≥
todayStart` hits the older, later-dated row — not the sum 2. -/
theorem spendCredits_future_row_counterexample :
    (∀ r ∈ exDB0.featureUsage, ¬(r.userId = exUser.id ∧ r.date = 10)) ∧
    (spendMany exUser 10 [1, 1] exDB0).featureUsage.find?
        (fun r => r.userId == exUser.id && r.date == 10)
      = some { userId := "u1", date := 10, buttonClicks := 2 } ∧
    (getUsageForUser exUser 10 0 (spendMany exUser 10 [1, 1] exDB0)).totalButtonClicksToday
      = 5 ∧
    ((5 : Int) ≠ 1 + 1) := by
  refine ⟨by decide, by decide, by decide, by decide⟩

/-- C1 amended: for every non-empty sequence of same-day `spendCredits`
calls with amounts `a1..an`, starting from a state where every
`FeatureUsage` row of that user is dated before that day (in particular
none exists for that day), the user's row for that day afterwards holds
`buttonClicks = a1+...+an` and `getUsageForUser` reports
`totalButtonClicksToday` equal to that sum. -/
theorem spendCredits_accumulates (user : SessionUser) (today ms : Nat)
    (amounts : List Int) (db : DB) (hne : amounts ≠ [])
    (hpast : ∀ r ∈ db.featureUsage, r.userId = user.id → r.date < today) :
    (spendMany user today amounts db).featureUsage.find?
        (fun r => r.userId == user.id && r.date == today)
      = some { userId := user.id, date := today, buttonClicks := amounts.sum } ∧
    (getUsageForUser user today ms
        (spendMany user today amounts db)).totalButtonClicksToday
      = amounts.sum := by
  have hno : ∀ r ∈ db.featureUsage, ¬(r.userId = user.id ∧ r.date = today) := by
    intro r hr hk
    have := hpast r hr hk.1
    omega
  obtain ⟨a, as, rfl⟩ := List.exists_cons_of_ne_nil hne
  have hfu : (spendMany user today (a :: as) db).featureUsage
      = db.featureUsage
        ++ [{ userId := user.id, date := today, buttonClicks := (a :: as).sum }] := by
    rw [spendMany_featureUsage, List.foldl_cons]
    show (as.foldl (fun acc x => upsertFeatureUsage user.id today x acc)
      (upsertFeatureUsage user.id today a db.featureUsage)) = _
    rw [upsertFeatureUsage_of_no_match _ _ _ _ hno,
      foldl_upsert_accumulates _ _ _ _ _ hno, List.sum_cons]
  constructor
  · rw [hfu, List.find?_append]
    have h1 : db.featureUsage.find?
        (fun r => r.userId == user.id && r.date == today) = none := by
      rw [List.find?_eq_none]
      intro r hr hbeq
      simp only [Bool.and_eq_true, beq_iff_eq] at hbeq
      exact hno r hr ⟨hbeq.1, hbeq.2⟩
    rw [h1]
    simp
  · have h2 : (spendMany user today (a :: as) db).featureUsage.find?
        (fun r => r.userId == user.id && decide (today ≤ r.date))
        = some { userId := user.id, date := today, buttonClicks := (a :: as).sum } := by
      rw [hfu, List.find?_append]
      have hl : db.featureUsage.find?
          (fun r => r.userId == user.id && decide (today ≤ r.date)) = none := by
        rw [List.find?_eq_none]
        intro r hr hbeq
        simp only [Bool.and_eq_true, beq_iff_eq, decide_eq_true_eq] at hbeq
        have := hpast r hr hbeq.1
        omega
      rw [hl]
      simp
    simp [getUsageForUser, h2]

/-- Witness for C1 (amended) at a concrete two-call sequence. -/
theorem spendCredits_accumulates_witness :
    (spendMany exUser 10 [2, 3] exDBEmpty).featureUsage.find?
        (fun r => r.userId == exUser.id && r.date == 10)
      = some { userId := exUser.id, date := 10, buttonClicks := ([2, 3] : List Int).sum } ∧
    (getUsageForUser exUser 10 0
        (spendMany exUser 10 [2, 3] exDBEmpty)).totalButtonClicksToday
      = ([2, 3] : List Int).sum :=
  spendCredits_accumulates exUser 10 0 [2, 3] exDBEmpty (by decide)
    (by intro r hr; simp [exDBEmpty] at hr)

/-! ## Helper lemmas on the plan reconciliation fold -/

lemma plans_fold_spec (variants : List VariantRow) :
    ∀ (ps : List PlanRow) (db : DB), (variants.map (·.id)).Nodup →
    variants.foldl createPlanForVariant (ps, db)
      = (ps ++ variants.map (fun v => (db.plans.find? (planKey v.id)).getD (planOfVariant v)),
         { db with
            plans := db.plans ++
              (variants.filter (fun v => (db.plans.find? (planKey v.id)).isNone)).map
                planOfVariant }) := by
  induction variants with
  | nil =>
    intro ps db _
    simp
  | cons v vs ih =>
    intro ps db hnd
    rw [List.map_cons, List.nodup_cons] at hnd
    obtain ⟨hv, hvs⟩ := hnd
    rw [List.foldl_cons]
    rcases hfind : db.plans.find? (planKey v.id) with _ | pl
    · have hstep : createPlanForVariant (ps, db) v
          = (ps ++ [planOfVariant v],
             { db with plans := db.plans ++ [planOfVariant v] }) := by
        simp only [createPlanForVariant, hfind]
      rw [hstep, ih _ _ hvs]
      have hpt : ∀ u ∈ vs,
          (db.plans ++ [planOfVariant v]).find? (planKey u.id)
            = db.plans.find? (planKey u.id) := by
        intro u hu
        rw [List.find?_append]
        have hne : v.id ≠ u.id := fun he => hv (he ▸ List.mem_map_of_mem (·.id) hu)
        have hsingle : ([planOfVariant v] : List PlanRow).find? (planKey u.id) = none := by
          have hb : (v.id == u.id) = false := beq_eq_false_iff_ne.mpr hne
          simp [planOfVariant, planKey, List.find?, hb]
        rw [hsingle, Option.or_none]
      rw [Prod.mk.injEq]
      constructor
      · rw [List.map_congr_left (fun u hu => by rw [hpt u hu])]
        rw [List.map_cons, hfind]
        simp [List.append_assoc]
      · rw [List.filter_congr (fun u hu => by rw [hpt u hu])]
        rw [List.filter_cons_of_pos (by rw [hfind]; rfl), List.map_cons]
        simp [List.append_assoc]
    · have hstep : createPlanForVariant (ps, db) v = (ps ++ [pl], db) := by
        simp only [createPlanForVariant, hfind]
      rw [hstep, ih _ _ hvs]
      rw [Prod.mk.injEq]
      constructor
      · rw [List.map_cons, hfind]
        simp [List.append_assoc]
      · rw [List.filter_cons_of_neg (by rw [hfind]; simp)]

/-- Every fetched variant has a matching plan row after the fold. -/
lemma plans_fold_covers (variants : List VariantRow) (ps : List PlanRow)
    (db : DB) (hnd : (variants.map (·.id)).Nodup) :
    ∀ v ∈ variants, ∃ r ∈ (variants.foldl createPlanForVariant (ps, db)).2.plans,
      r.lemonSqueezyVariantId = v.id := by
  intro v hvmem
  rw [plans_fold_spec variants ps db hnd]
  rcases hfind : db.plans.find? (planKey v.id) with _ | pl
  · refine ⟨planOfVariant v, ?_, rfl⟩
    apply List.mem_append_right
    apply List.mem_map_of_mem
    rw [List.mem_filter]
    exact ⟨hvmem, by rw [hfind]; rfl⟩
  · refine ⟨pl, List.mem_append_left _ (List.mem_of_find?_eq_some hfind), ?_⟩
    have := List.find?_some hfind
    simpa [planKey] using this

/-- C5: with a `SUPER_ADMIN` caller and a variants response carrying data
(with distinct variant ids), `createPlansFromLemonSqueezyVariants`
returns, per fetched variant, the existing plan row for that variant id
when one exists and a freshly created row with that variant's id and name
otherwise; the table gains exactly the rows of the missing variants, the
returned list has one plan per fetched variant, and a second run on the
same provider data creates no additional rows. -/
theorem createPlans_create_if_missing (user : SessionUser) (p : Provider)
    (db : DB) (variants : List VariantRow)
    (hrole : user.role = "SUPER_ADMIN") (hdata : p.variantsData = some variants)
    (hnd : (variants.map (·.id)).Nodup) :
    (createPlansFromLemonSqueezyVariants user p db).1
      = .ok (variants.map (fun v =>
          (db.plans.find? (planKey v.id)).getD (planOfVariant v))) ∧
    (createPlansFromLemonSqueezyVariants user p db).2.1.plans
      = db.plans ++
          (variants.filter (fun v => (db.plans.find? (planKey v.id)).isNone)).map
            planOfVariant ∧
    (∀ plans₁, (createPlansFromLemonSqueezyVariants user p db).1 = .ok plans₁ →
      plans₁.length = variants.length) ∧
    (createPlansFromLemonSqueezyVariants user p
        (createPlansFromLemonSqueezyVariants user p db).2.1).2.1.plans
      = (createPlansFromLemonSqueezyVariants user p db).2.1.plans := by
  have hb : (user.role != "SUPER_ADMIN") = false := by simp [hrole]
  have hout : createPlansFromLemonSqueezyVariants user p db
      = (.ok (variants.foldl createPlanForVariant ([], db)).1,
         (variants.foldl createPlanForVariant ([], db)).2,
         [ApiCall.listVariants none]) := by
    simp [createPlansFromLemonSqueezyVariants, hb, hdata]
  have hspec := plans_fold_spec variants [] db hnd
  refine ⟨?_, ?_, ?_, ?_⟩
  · rw [hout]
    simp only [hspec, List.nil_append]
  · rw [hout]
    simp only [hspec, List.nil_append]
  · intro plans₁ hplans₁
    rw [hout] at hplans₁
    simp only [Except.ok.injEq] at hplans₁
    rw [← hplans₁, hspec]
    simp
  · have hcov : ∀ v ∈ variants,
        ∃ r ∈ (createPlansFromLemonSqueezyVariants user p db).2.1.plans,
          r.lemonSqueezyVariantId = v.id := by
      intro v hvmem
      rw [hout]
      exact plans_fold_covers variants [] db hnd v hvmem
    have hnilfilter : variants.filter (fun v =>
        ((createPlansFromLemonSqueezyVariants user p db).2.1.plans.find?
          (planKey v.id)).isNone) = [] := by
      rw [List.filter_eq_nil_iff]
      intro v hvmem
      obtain ⟨r, hr, hrk⟩ := hcov v hvmem
      have hsome : ((createPlansFromLemonSqueezyVariants user p db).2.1.plans.find?
          (planKey v.id)).isSome = true := by
        rw [List.find?_isSome]
        exact ⟨r, hr, by simp [planKey, hrk]⟩
      rcases hfo : (createPlansFromLemonSqueezyVariants user p db).2.1.plans.find?
          (planKey v.id) with _ | _
      · rw [hfo] at hsome
        simp at hsome
      · simp [hfo]
    have hout₂ : createPlansFromLemonSqueezyVariants user p
        (createPlansFromLemonSqueezyVariants user p db).2.1
        = (.ok (variants.foldl createPlanForVariant
              ([], (createPlansFromLemonSqueezyVariants user p db).2.1)).1,
           (variants.foldl createPlanForVariant
              ([], (createPlansFromLemonSqueezyVariants user p db).2.1)).2,
           [ApiCall.listVariants none]) := by
      simp [createPlansFromLemonSqueezyVariants, hb, hdata]
    rw [hout₂,
      plans_fold_spec variants [] (createPlansFromLemonSqueezyVariants user p db).2.1 hnd,
      hnilfilter]
    simp

/-- Witness for C5 at a provider with two variants, one already mirrored:
the first run keeps the existing `v1` row and adds only `v2`; the second
run adds nothing. -/
theorem createPlans_create_if_missing_witness :
    (createPlansFromLemonSqueezyVariants exAdmin exProviderTwoVariants exDBOnePlan).2.1.plans
      = [{ lemonSqueezyVariantId := "v1", name := "Old" },
         { lemonSqueezyVariantId := "v2", name := "Pro" }] ∧
    (createPlansFromLemonSqueezyVariants exAdmin exProviderTwoVariants
        (createPlansFromLemonSqueezyVariants exAdmin exProviderTwoVariants
          exDBOnePlan).2.1).2.1.plans
      = (createPlansFromLemonSqueezyVariants exAdmin exProviderTwoVariants
          exDBOnePlan).2.1.plans := by
  have h := createPlans_create_if_missing exAdmin exProviderTwoVariants exDBOnePlan
    [{ id := "v1", name := "Basic", status := "published", product_id := "p1" },
     { id := "v2", name := "Pro", status := "published", product_id := "p1" }]
    (by decide) rfl (by decide)
  refine ⟨?_, h.2.2.2⟩
  rw [h.2.1]
  decide

/-! ## Helper lemmas on webhook creation -/

lemma hasWebhook_ok (env : Env) (p : Provider)
    (hurl : strFalsy env.LEMON_SQUEEZY_WEBHOOK_URL = false) :
    hasWebhook env p
      = (.ok (lsWebhookFound env p),
         [ApiCall.listWebhooks env.LEMONSQUEEZY_STORE_ID]) := by
  simp [hasWebhook, hurl]

lemma createLsWebhook_of_found (env : Env) (user : SessionUser) (p : Provider)
    (hrole : (user.role != "SUPER_ADMIN") = false)
    (hurl : strFalsy env.LEMON_SQUEEZY_WEBHOOK_URL = false)
    (w : WebhookRow) (hfound : lsWebhookFound env p = some w) :
    createLsWebhook env user p
      = (.ok (), p, [ApiCall.listWebhooks env.LEMONSQUEEZY_STORE_ID]) := by
  rw [createLsWebhook]
  rw [hasWebhook_ok env p hurl]
  simp [hrole, hurl, hfound]

lemma createLsWebhook_of_not_found (env : Env) (user : SessionUser) (p : Provider)
    (hrole : (user.role != "SUPER_ADMIN") = false)
    (hurl : strFalsy env.LEMON_SQUEEZY_WEBHOOK_URL = false)
    (hfound : lsWebhookFound env p = none) :
    createLsWebhook env user p
      = (.ok (), { p with webhooks := p.webhooks ++ [createdWebhookRow env] },
         [ApiCall.listWebhooks env.LEMONSQUEEZY_STORE_ID,
          ApiCall.createWebhook env.LEMON_SQUEEZY_STORE_ID
            env.LEMON_SQUEEZY_WEBHOOK_SECRET
            (env.LEMON_SQUEEZY_WEBHOOK_URL.getD "") true]) := by
  rw [createLsWebhook]
  rw [hasWebhook_ok env p hurl]
  simp [hrole, hurl, hfound]

/-- After appending the created webhook, the `hasWebhook` search finds it,
provided the listing filter (`process.env.LEMONSQUEEZY_STORE_ID`) is
absent or equal to the store id the webhook was created in. -/
lemma lsWebhookFound_after_create (env : Env) (p : Provider)
    (hstore : env.LEMONSQUEEZY_STORE_ID = none ∨
      env.LEMONSQUEEZY_STORE_ID = env.LEMON_SQUEEZY_STORE_ID)
    (hfound : lsWebhookFound env p = none) :
    lsWebhookFound env { p with webhooks := p.webhooks ++ [createdWebhookRow env] }
      = some (createdWebhookRow env) := by
  have hpred : (fun wh => wh.url == env.LEMON_SQUEEZY_WEBHOOK_URL.getD ""
      && wh.test_mode) (createdWebhookRow env) = true := by
    simp [createdWebhookRow]
  rcases hsid : env.LEMONSQUEEZY_STORE_ID with _ | sid
  · rw [lsWebhookFound, hsid] at hfound ⊢
    simp only [listWebhooksApi] at hfound ⊢
    simp only [List.find?_append, hfound, Option.none_or]
    exact List.find?_cons_of_pos _ hpred
  · have h0 : env.LEMONSQUEEZY_STORE_ID = env.LEMON_SQUEEZY_STORE_ID := by
      rcases hstore with h0 | h0
      · rw [h0] at hsid
        cases hsid
      · exact h0
    have hmem : (createdWebhookRow env).storeId = some sid := by
      rw [createdWebhookRow]
      show env.LEMON_SQUEEZY_STORE_ID = some sid
      rw [← h0, hsid]
    rw [lsWebhookFound, hsid] at hfound ⊢
    simp only [listWebhooksApi] at hfound ⊢
    have hfilter : ((p.webhooks ++ [createdWebhookRow env]).filter
        (fun wh => wh.storeId == some sid))
        = p.webhooks.filter (fun wh => wh.storeId == some sid)
          ++ [createdWebhookRow env] := by
      rw [List.filter_append]
      congr 1
      simp [hmem]
    rw [hfilter, List.find?_append, hfound, Option.none_or]
    exact List.find?_cons_of_pos _ hpred

/-- C6 counterexample: when the two differently spelled store-id
variables hold different values (`process.env.LEMONSQUEEZY_STORE_ID =
"A"`, `env.LEMON_SQUEEZY_STORE_ID = "B"`), the webhook is created in
store `B` but listed with filter `A`, so a second invocation after a
successful first one does not find it and registers a second webhook —
the claim that no additional webhook is registered fails. -/
theorem createLsWebhook_store_filter_counterexample :
    (createLsWebhook exEnvMismatch exAdmin exProviderEmpty).1 = .ok () ∧
    ((createLsWebhook exEnvMismatch exAdmin exProviderEmpty).2.2.any
      (·.isCreateWebhook)) = true ∧
    ((createLsWebhook exEnvMismatch exAdmin
        (createLsWebhook exEnvMismatch exAdmin exProviderEmpty).2.1).2.2.any
      (·.isCreateWebhook)) = true ∧
    (createLsWebhook exEnvMismatch exAdmin
        (createLsWebhook exEnvMismatch exAdmin exProviderEmpty).2.1).2.1.webhooks.length
      = 2 := by
  refine ⟨rfl, rfl, rfl, rfl⟩

/-- C6, amended: `createLsWebhook` calls `createWebhook` only when
`hasWebhook` finds no webhook matching the configured URL with
`test_mode` set, and makes no creation call when one is found; a second
invocation after a successful first one registers no additional webhook
provided the store id filtering the webhook listing
(`process.env.LEMONSQUEEZY_STORE_ID`) is absent or equal to the store id
used for creation (`env.LEMON_SQUEEZY_STORE_ID`). -/
theorem createLsWebhook_idempotent (env : Env) (user : SessionUser) (p : Provider) :
    (((createLsWebhook env user p).2.2.any (·.isCreateWebhook)) = true →
      lsWebhookFound env p = none) ∧
    (∀ w, lsWebhookFound env p = some w →
      ((createLsWebhook env user p).2.2.any (·.isCreateWebhook)) = false) ∧
    ((env.LEMONSQUEEZY_STORE_ID = none ∨
        env.LEMONSQUEEZY_STORE_ID = env.LEMON_SQUEEZY_STORE_ID) →
      (createLsWebhook env user p).1 = .ok () →
      ((createLsWebhook env user (createLsWebhook env user p).2.1).2.2.any
        (·.isCreateWebhook)) = false ∧
      (createLsWebhook env user (createLsWebhook env user p).2.1).2.1
        = (createLsWebhook env user p).2.1) := by
  by_cases hrole : (user.role != "SUPER_ADMIN") = true
  · have hc : createLsWebhook env user p
        = (.error "Unauthorized access to the resource", p, []) := by
      simp [createLsWebhook, hrole]
    refine ⟨?_, ?_, ?_⟩
    · intro habs
      rw [hc] at habs
      simp at habs
    · intro w _
      rw [hc]
      rfl
    · intro _ hok
      rw [hc] at hok
      simp at hok
  · have hrole' : (user.role != "SUPER_ADMIN") = false := by
      rwa [Bool.not_eq_true] at hrole
    by_cases hurl : strFalsy env.LEMON_SQUEEZY_WEBHOOK_URL = true
    · have hc : createLsWebhook env user p
          = (.error "Missing required LEMON_SQUEEZY_WEBHOOK_URL env variable. Please, set it in your .env file.", p, []) := by
        simp [createLsWebhook, hrole', hurl]
      refine ⟨?_, ?_, ?_⟩
      · intro habs
        rw [hc] at habs
        simp at habs
      · intro w _
        rw [hc]
        rfl
      · intro _ hok
        rw [hc] at hok
        simp at hok
    · have hurl' : strFalsy env.LEMON_SQUEEZY_WEBHOOK_URL = false := by
        rwa [Bool.not_eq_true] at hurl
      rcases hfound : lsWebhookFound env p with _ | w
      · have hc := createLsWebhook_of_not_found env user p hrole' hurl' hfound
        refine ⟨fun _ => rfl, ?_, ?_⟩
        · intro w hw
          exact Option.noConfusion hw
        · intro hstore _
          have hfound2 := lsWebhookFound_after_create env p hstore hfound
          have hc2 := createLsWebhook_of_found env user
            { p with webhooks := p.webhooks ++ [createdWebhookRow env] }
            hrole' hurl' (createdWebhookRow env) hfound2
          rw [hc]
          rw [hc2]
          exact ⟨rfl, rfl⟩
      · have hc := createLsWebhook_of_found env user p hrole' hurl' w hfound
        refine ⟨?_, fun w' _ => by rw [hc]; rfl, ?_⟩
        · intro habs
          rw [hc] at habs
          simp [ApiCall.isCreateWebhook] at habs
        · intro _ _
          have hc2 := createLsWebhook_of_found env user p hrole' hurl' w hfound
          rw [hc, hc2]
          exact ⟨rfl, rfl⟩

/-- Witness for C6 at a fully configured environment whose store-id
variables agree: the second invocation performs no creation call and
leaves the provider unchanged. -/
theorem createLsWebhook_idempotent_witness :
    ((createLsWebhook exEnvFull exAdmin
        (createLsWebhook exEnvFull exAdmin exProviderEmpty).2.1).2.2.any
      (·.isCreateWebhook)) = false ∧
    (createLsWebhook exEnvFull exAdmin
        (createLsWebhook exEnvFull exAdmin exProviderEmpty).2.1).2.1
      = (createLsWebhook exEnvFull exAdmin exProviderEmpty).2.1 :=
  (createLsWebhook_idempotent exEnvFull exAdmin exProviderEmpty).2.2
    (Or.inr rfl) rfl

end PaymentManagement
